import Mathlib

/-!
Verification of the HealthCare-Symptom-Checker repository.

The repository in `src/` ships the Next.js frontend (API client, symptom
form, result card).  The FastAPI backend that implements the retrieval
pipeline, emergency gate, vector index and analysis pipeline is described
by the specification but its Python sources are not part of `src/`; those
components are therefore modelled from the specification, as marked on
each definition.  Frontend functions (`analyzeSymptoms`, the form submit
handler, the form validation rules) are embedded directly from the
TypeScript sources.
-/

namespace SymptomChecker

/-! ## Severity tiers and the Safety Verdict -/

/-- Modelled from the spec: `severity: enum{routine,moderate,urgent,critical}`. -/
inductive Severity where
  | routine
  | moderate
  | urgent
  | critical
deriving DecidableEq, Repr

/-- Numeric rank of a tier, following `critical > urgent > moderate > routine`. -/
def sevRank : Severity → Nat
  | .routine => 0
  | .moderate => 1
  | .urgent => 2
  | .critical => 3

/-- Maximum of two tiers under the `critical > urgent > moderate > routine` order. -/
def maxSev (a b : Severity) : Severity :=
  if sevRank a ≤ sevRank b then b else a

/-- Modelled from the spec: the Safety Verdict record of §3. -/
structure SafetyVerdict where
  is_emergency : Bool
  severity : Severity
  matched_keywords : List String
  recommendation : String
deriving DecidableEq, Repr

/-! ## Emergency Gate (modelled from spec §4.6: backend `symptom_analyzer.py`
is not part of `src/`) -/

/-- Modelled from the spec: text normalization for phrase matching —
lowercased, punctuation-stripped, whitespace-collapsed.  Non-alphanumeric,
non-whitespace characters are dropped; whitespace becomes a single space. -/
def normalizeRaw (cs : List Char) : List Char :=
  cs.filterMap fun c =>
    if c.isAlphanum then some c.toLower
    else if c.isWhitespace then some ' '
    else none

/-- Collapse runs of spaces to a single space. -/
def collapseSpaces : List Char → List Char
  | [] => []
  | [c] => [c]
  | a :: b :: r =>
    if a = ' ' ∧ b = ' ' then collapseSpaces (b :: r)
    else a :: collapseSpaces (b :: r)

/-- Normalized character sequence of a symptom text. -/
def normalize (s : String) : List Char :=
  collapseSpaces (normalizeRaw s.toList)

/-- Substring test on character lists (case handled by prior normalization). -/
def containsSub (pat : List Char) (s : List Char) : Bool :=
  match s with
  | [] => pat.isEmpty
  | _ :: rest => pat.isPrefixOf s || containsSub pat rest

/-- Modelled from the spec: the curated mapping from emergency phrase to
severity tier (§4.6 gives "chest pain", "difficulty breathing" → critical and
"persistent vomiting" → urgent as examples; phrases are stored normalized). -/
def emergencyTable : List (String × Severity) :=
  [("chest pain", .critical),
   ("difficulty breathing", .critical),
   ("cant breathe", .critical),
   ("severe bleeding", .critical),
   ("unconscious", .critical),
   ("stroke", .critical),
   ("persistent vomiting", .urgent),
   ("confusion", .urgent),
   ("high fever", .urgent),
   ("severe abdominal pain", .urgent),
   ("headache", .moderate),
   ("fever", .moderate),
   ("dizziness", .moderate)]

/-- Modelled from the spec: recommendation text attached per severity tier. -/
def recommendationFor : Severity → String
  | .critical => "CALL 112 IMMEDIATELY - seek emergency care now"
  | .urgent => "Seek urgent medical care within hours"
  | .moderate => "Monitor symptoms and consult a doctor if they worsen"
  | .routine => "Self-care is usually sufficient; see a doctor if symptoms persist"

/-- Table entries whose (normalized) phrase occurs in the normalized text. -/
def matchedEntries (text : String) : List (String × Severity) :=
  emergencyTable.filter fun kv => containsSub (normalize kv.1) (normalize text)

/-- Modelled from the spec: `evaluate(symptom_text) → Safety Verdict` (§4.6).
Severity is the maximum tier among all matches, all matched phrases are
recorded, and `is_emergency` holds iff severity is urgent or critical. -/
def evaluate (text : String) : SafetyVerdict :=
  let ms := matchedEntries text
  let sev := ms.foldl (fun acc kv => maxSev acc kv.2) .routine
  { is_emergency := decide (sev = .urgent ∨ sev = .critical)
    severity := sev
    matched_keywords := ms.map (·.1)
    recommendation := recommendationFor sev }

/-! ### Maximum-fold lemmas for the gate -/

theorem sevRank_le_maxSev_left (a b : Severity) : sevRank a ≤ sevRank (maxSev a b) := by
  unfold maxSev
  split <;> omega

theorem sevRank_le_maxSev_right (a b : Severity) : sevRank b ≤ sevRank (maxSev a b) := by
  unfold maxSev
  split <;> omega

theorem maxSev_cases (a b : Severity) : maxSev a b = a ∨ maxSev a b = b := by
  unfold maxSev
  split
  · exact Or.inr rfl
  · exact Or.inl rfl

theorem foldl_maxSev_init_le (l : List (String × Severity)) (init : Severity) :
    sevRank init ≤ sevRank (l.foldl (fun acc kv => maxSev acc kv.2) init) := by
  induction l generalizing init with
  | nil => exact Nat.le_refl _
  | cons hd tl ih =>
    exact Nat.le_trans (sevRank_le_maxSev_left init hd.2) (ih (maxSev init hd.2))

theorem foldl_maxSev_mem_le (l : List (String × Severity)) (init : Severity)
    (kv : String × Severity) (h : kv ∈ l) :
    sevRank kv.2 ≤ sevRank (l.foldl (fun acc kv => maxSev acc kv.2) init) := by
  induction l generalizing init with
  | nil => cases h
  | cons hd tl ih =>
    rcases List.mem_cons.mp h with h | h
    · subst h
      exact Nat.le_trans (sevRank_le_maxSev_right init kv.2)
        (foldl_maxSev_init_le tl (maxSev init kv.2))
    · exact ih (maxSev init hd.2) h

theorem foldl_maxSev_attained (l : List (String × Severity)) (init : Severity) :
    l.foldl (fun acc kv => maxSev acc kv.2) init = init ∨
      ∃ kv ∈ l, kv.2 = l.foldl (fun acc kv => maxSev acc kv.2) init := by
  induction l generalizing init with
  | nil => exact Or.inl rfl
  | cons hd tl ih =>
    rcases ih (maxSev init hd.2) with h | h
    · rcases maxSev_cases init hd.2 with h2 | h2
      · exact Or.inl (by simpa [h2] using h)
      · exact Or.inr ⟨hd, List.mem_cons_self _ _, by rw [List.foldl_cons, h, h2]⟩
    · rcases h with ⟨kv, hmem, hkv⟩
      exact Or.inr ⟨kv, List.mem_cons_of_mem _ hmem, hkv⟩

/-! ## Data model of the analysis pipeline (modelled from spec §3) -/

/-- Modelled from the spec: `gender?: enum` as offered by the form. -/
inductive Gender where
  | male
  | female
  | other
  | prefer_not_to_say
deriving DecidableEq, Repr

/-- Modelled from the spec: `severity?: enum{mild,moderate,severe}` of the report. -/
inductive ReportSeverity where
  | mild
  | moderate
  | severe
deriving DecidableEq, Repr

/-- Modelled from the spec: the Symptom Report input record of §3. -/
structure SymptomReport where
  symptoms : String
  age : Option Nat
  gender : Option Gender
  medical_history : Option (List String)
  duration : Option String
  severity : Option ReportSeverity
deriving DecidableEq, Repr

/-- Modelled from the spec: `confidence_level: enum{low,medium,high}`. -/
inductive ConfidenceLevel where
  | low
  | medium
  | high
deriving DecidableEq, Repr

/-- Modelled from the spec: the Structured Analysis record of §3. -/
structure StructuredAnalysis where
  possible_conditions : List String
  severity_assessment : String
  recommended_actions : List String
  self_care_tips : List String
  red_flags : List String
  when_to_seek_care : String
  confidence_level : ConfidenceLevel
deriving DecidableEq, Repr

/-- Modelled from the spec: the Retrieval Result record of §3. -/
structure RetrievalResult where
  chunk_id : Nat
  text : String
  score : ℚ
  document_source : String
deriving DecidableEq, Repr

/-- Modelled from the spec: the error taxonomy of §7. -/
inductive CoreError where
  | configuration (msg : String)
  | provider (msg : String)
  | parse (msg : String)
  | indexInconsistency (msg : String)
deriving DecidableEq, Repr

/-! ## Prompt Orchestrator and Analysis Pipeline (modelled from spec §4.7/§4.8:
the backend `symptom_analyzer.py` is not part of `src/`) -/

/-- Modelled from the spec: the external boundaries of one `handle` call —
the retriever (embedding provider + vector search, which may raise
ProviderError) and the language-model completion call with strict parsing
(attempt-indexed; an attempt either yields a schema-conforming Structured
Analysis or a ProviderError/ParseError). -/
structure Env where
  retrieveCtx : String → Except CoreError (List RetrievalResult)
  llm : String → Nat → Except CoreError StructuredAnalysis

/-- Modelled from the spec: prompt assembly (§4.7) — system instructions,
patient fields, safety verdict, and retrieved chunks tagged with sources. -/
def buildPrompt (r : SymptomReport) (ctx : List RetrievalResult)
    (v : SafetyVerdict) : String :=
  "SYSTEM: answer strictly in the Structured Analysis schema. " ++
  "SYMPTOMS: " ++ r.symptoms ++
  " SAFETY: " ++ v.recommendation ++
  " CONTEXT: " ++ String.join (ctx.map fun c =>
    "[" ++ c.document_source ++ "] " ++ c.text ++ " ")

/-- Modelled from the spec: the single bounded retry of §7 — the
language-model call is attempted once and retried at most once before
surfacing failure. -/
def callLLMWithRetry (env : Env) (prompt : String) :
    Except CoreError StructuredAnalysis :=
  match env.llm prompt 0 with
  | .ok a => .ok a
  | .error _ => env.llm prompt 1

/-- Modelled from the spec: `analyze(symptom_report, retrieved_context,
safety_verdict) → Structured Analysis` (§4.7); `confidence_level` is forced
to `low` whenever the retrieved context is empty, overriding the model. -/
def analyze (env : Env) (r : SymptomReport) (ctx : List RetrievalResult)
    (v : SafetyVerdict) : Except CoreError StructuredAnalysis :=
  (callLLMWithRetry env (buildPrompt r ctx v)).map fun a =>
    if ctx.isEmpty then { a with confidence_level := .low } else a

/-- Modelled from the spec: the `{ safety_check, analysis, status }` output
record of §4.8, with the recognized statuses `success`/`emergency`/`partial`. -/
structure HandleResult where
  status : String
  safety_check : SafetyVerdict
  analysis : Option StructuredAnalysis
deriving Repr

/-- Modelled from the spec: the §4.8 state machine — Emergency Gate first;
`critical` short-circuits with status `emergency` and no analysis; any
failure during RETRIEVE or ANALYZE degrades to status `partial` keeping the
Safety Verdict; otherwise status `success` with both parts populated. -/
def handle (r : SymptomReport) (env : Env) : HandleResult :=
  let v := evaluate r.symptoms
  if v.severity = .critical then
    { status := "emergency", safety_check := v, analysis := none }
  else
    match env.retrieveCtx r.symptoms with
    | .error _ => { status := "partial", safety_check := v, analysis := none }
    | .ok ctx =>
      match analyze env r ctx v with
      | .error _ => { status := "partial", safety_check := v, analysis := none }
      | .ok a => { status := "success", safety_check := v, analysis := some a }

/-! ## Vector Index and Retriever (modelled from spec §4.3/§4.5: the backend
`rag_service.py` is not part of `src/`) -/

/-- Modelled from the spec: one stored entry of the Vector Index —
`(chunk text, vector, metadata)` keyed by chunk id. -/
structure IndexEntry where
  chunkId : Nat
  docId : String
  text : String
  vec : List ℚ
deriving DecidableEq, Repr

/-- Dot product of two vectors (truncating at the shorter one). -/
def dot (u v : List ℚ) : ℚ :=
  (List.zipWith (· * ·) u v).sum

/-- Sum of squared components of a vector. -/
def sumSq (u : List ℚ) : ℚ :=
  (u.map fun x => x * x).sum

/-- Result ordering of `search`: descending score, ties broken by ascending
chunk id. -/
def resultLE (a b : RetrievalResult) : Prop :=
  b.score < a.score ∨ (a.score = b.score ∧ a.chunk_id ≤ b.chunk_id)

instance (a b : RetrievalResult) : Decidable (resultLE a b) := by
  unfold resultLE
  infer_instance

/-- Boolean comparator used by the sort. -/
def resultLEb (a b : RetrievalResult) : Bool :=
  decide (resultLE a b)

/-- Modelled from the spec: `search(query_vector, k)` (§4.3) — scores each
stored entry by cosine similarity against the query (embeddings are stored
unit-normalized, so cosine is the dot product), sorts by descending score
with ties broken by ascending chunk id, and keeps the top k.  On an empty
index this is the empty sequence. -/
def search (entries : List IndexEntry) (q : List ℚ) (k : Nat) :
    List RetrievalResult :=
  (((entries.map fun e =>
      ({ chunk_id := e.chunkId, text := e.text, score := dot q e.vec
         document_source := e.docId } : RetrievalResult))).mergeSort
    resultLEb).take k

/-- Modelled from the spec: `upsert(chunk_id, vector, metadata)` (§4.3) —
replaces any existing entry for the chunk id. -/
def upsert (entries : List IndexEntry) (e : IndexEntry) : List IndexEntry :=
  e :: entries.filter fun x => x.chunkId ≠ e.chunkId

/-- Modelled from the spec: `clear()` (§4.3) — empties the index. -/
def clear (_ : List IndexEntry) : List IndexEntry := []

/-- Modelled from the spec: the deterministic Embedding Provider adapter
(§4.2; the model itself is an external dependency) — a fixed pure function
from text to a fixed-dimension numeric vector stands in for it. -/
def embed (s : String) : List ℚ :=
  let codes := s.toList.map Char.toNat
  [((codes.sum : Nat) : ℚ), ((codes.length : Nat) : ℚ),
   (((codes.filter (· % 2 = 0)).length : Nat) : ℚ), 1]

/-- Modelled from the spec: `retrieve(query_text, k)` (§4.5) — embeds the
query and searches; `k ≤ 0` is a precondition violation surfaced as a
configuration error, never clamped. -/
def retrieve (entries : List IndexEntry) (q : String) (k : Int) :
    Except CoreError (List RetrievalResult) :=
  if k ≤ 0 then .error (.configuration "retrieval k must be positive")
  else .ok (search entries (embed q) k.toNat)

/-! ## Chunker and Indexer (modelled from spec §4.1/§4.4: the backend
`rag_service.py` is not part of `src/`) -/

/-- Modelled from the spec: document kinds `{text, pdf}`. -/
inductive DocKind where
  | text
  | pdf
deriving DecidableEq, Repr

/-- Modelled from the spec: the Document record of §3. -/
structure Document where
  id : String
  source_path : String
  raw_text : String
  kind : DocKind
deriving DecidableEq, Repr

/-- Modelled from the spec: the Chunk record of §3 (ids are the per-document
sequence index, made global by the Indexer). -/
structure Chunk where
  id : Nat
  document_id : String
  sequence_index : Nat
  text : String
  token_count : Nat
  overlap_with_prev : Nat
deriving DecidableEq, Repr

/-- Modelled from the spec: the pluggable token-counting unit — tokens are
the whitespace-separated words of the text. -/
def tokenize (s : String) : List String :=
  (s.split fun c => c.isWhitespace).filter fun w => w ≠ ""

/-- Sliding windows of `size` tokens advancing by `step` tokens; a document
shorter than `size` yields exactly one window. -/
def windows (size step : Nat) (hstep : 0 < step) (toks : List String) :
    List (List String) :=
  if toks.length ≤ size then [toks]
  else toks.take size :: windows size step hstep (toks.drop step)
termination_by toks.length
decreasing_by
  simp only [List.length_drop]
  omega

/-- Modelled from the spec: `chunk(document, chunk_size_tokens,
overlap_tokens)` (§4.1) — `overlap_tokens < chunk_size_tokens` is a
precondition; violating it is a configuration error, failing fast with no
partial chunking. -/
def chunk (doc : Document) (chunkSize overlapTokens : Nat) :
    Except CoreError (List Chunk) :=
  if h : overlapTokens < chunkSize then
    let ws := windows chunkSize (chunkSize - overlapTokens) (by omega)
      (tokenize doc.raw_text)
    .ok (ws.enum.map fun p =>
      { id := p.1, document_id := doc.id, sequence_index := p.1
        text := String.intercalate " " p.2, token_count := p.2.length
        overlap_with_prev := if p.1 = 0 then 0 else overlapTokens })
  else .error (.configuration "overlap_tokens must be less than chunk_size_tokens")

/-- Modelled from the spec: `IndexBuildReport` (§4.4). -/
structure IndexBuildReport where
  chunks_indexed : Nat
  documents_processed : Nat
deriving DecidableEq, Repr

/-- Modelled from the spec: `build(documents, chunk_size, overlap)` (§4.4) —
chunks every document, embeds each chunk, and upserts every (chunk, vector,
metadata) into the index, assigning global chunk ids deterministically. -/
def build (st : List IndexEntry) (docs : List Document)
    (chunkSize overlapTokens : Nat) :
    Except CoreError (List IndexEntry × IndexBuildReport) :=
  (docs.foldlM (fun (acc : List IndexEntry × Nat × Nat) doc => do
      let cs ← chunk doc chunkSize overlapTokens
      let entries := cs.foldl (fun es (c : Chunk) =>
        upsert es { chunkId := acc.2.1 + c.id, docId := doc.id
                    text := c.text, vec := embed c.text }) acc.1
      pure (entries, acc.2.1 + cs.length, acc.2.2 + 1))
    (st, 0, 0)).map fun (acc : List IndexEntry × Nat × Nat) =>
      (acc.1, { chunks_indexed := acc.2.1, documents_processed := acc.2.2 })

/-- Search results of a finished build (empty when the build failed). -/
def buildSearch (b : Except CoreError (List IndexEntry × IndexBuildReport))
    (q : List ℚ) (k : Nat) : List RetrievalResult :=
  match b with
  | .ok (es, _) => search es q k
  | .error _ => []

/-- Chunk-to-document mapping of a finished build. -/
def buildChunkMap (b : Except CoreError (List IndexEntry × IndexBuildReport)) :
    List (Nat × String) :=
  match b with
  | .ok (es, _) => es.map fun e => (e.chunkId, e.docId)
  | .error _ => []

/-! ## Frontend: symptom form validation (`SymptomForm.tsx`) -/

/-- The form's data record (`SymptomFormData` in `SymptomForm.tsx`): a raw
symptoms text plus optional fields; medical history is one free-text input. -/
structure SymptomFormData where
  symptoms : String
  age : Option Int
  gender : Option String
  medical_history : Option String
  duration : Option String
  severity : Option ReportSeverity
deriving DecidableEq, Repr

/-- Validation of the symptoms textarea (`register('symptoms', { required,
minLength: { value: 10 } })`): the raw value must be non-empty and have at
least 10 characters (no trimming is applied by either rule). -/
def symptomsFieldAccepted (s : String) : Bool :=
  (!s.isEmpty) && decide (10 ≤ s.length)

/-- Validation of the age input (`register('age', { min: 0, max: 120 })`):
optional; when supplied it must lie between 0 and 120. -/
def ageFieldAccepted : Option Int → Bool
  | none => true
  | some a => decide (0 ≤ a) && decide (a ≤ 120)

/-- Whole-form validation: `handleSubmit` runs `onSubmit` only when every
registered rule passes; gender, medical history, duration and severity are
registered without rules. -/
def formAccepts (d : SymptomFormData) : Bool :=
  symptomsFieldAccepted d.symptoms && ageFieldAccepted d.age

/-- Non-emptiness after trimming: the text has a non-whitespace character. -/
def trimmedNonempty (s : String) : Bool :=
  s.toList.any fun c => !c.isWhitespace

/-- Modelled from the spec: the core's acceptance rule for a Symptom Report
(§3/§6) — `symptoms` non-empty after trimming, nothing else re-validated.
The backend request validation is not part of `src/`. -/
def coreAccepts (r : SymptomReport) : Bool :=
  trimmedNonempty r.symptoms

/-! ## Frontend: medical-history processing in `onSubmit` (`SymptomForm.tsx`) -/

/-- JavaScript `String.prototype.split(',')` on the character level: splits
at every comma, keeping empty segments; the result is never the empty list. -/
def splitOnComma : List Char → List (List Char)
  | [] => [[]]
  | c :: rest =>
    let r := splitOnComma rest
    if c = ',' then [] :: r
    else
      match r with
      | [] => [[c]]
      | h :: t => (c :: h) :: t

/-- JavaScript `String.prototype.trim()`: strip whitespace at both ends. -/
def trimChars (cs : List Char) : List Char :=
  ((cs.dropWhile Char.isWhitespace).reverse.dropWhile Char.isWhitespace).reverse

/-- `data.medical_history.split(',').map(item => item.trim())`. -/
def medicalHistoryList (s : String) : List String :=
  (splitOnComma s.toList).map fun cs => String.mk (trimChars cs)

/-- The `onSubmit` computation of the payload's `medical_history` field:
a falsy input (absent field or empty string) gives `[]`, otherwise the
comma-split trimmed list; the payload carries the list only when it is
non-empty, else `undefined`. -/
def processMedicalHistory : Option String → Option (List String)
  | none => none
  | some s =>
    if s = "" then none
    else
      let l := medicalHistoryList s
      if l.length > 0 then some l else none

/-! ## Frontend: `analyzeSymptoms` in `lib/api.ts` -/

/-- Outcome of the axios `POST /api/analyze` call: a 2xx response with a
body, a non-2xx response (axios rejects; `error.response.data.detail` may
be present), or a transport failure with no response at all. -/
inductive HttpOutcome (α : Type) where
  | success (body : α)
  | httpError (detail : Option String)
  | networkError
deriving DecidableEq, Repr

/-- JavaScript `x || fallback` for an optionally-present string `x`:
the fallback is used when `x` is absent or falsy (the empty string). -/
def jsOrDefault (d : Option String) (fallback : String) : String :=
  match d with
  | some s => if s = "" then fallback else s
  | none => fallback

/-- `analyzeSymptoms` (`lib/api.ts` lines 86–95): returns `response.data` on
success; on any rejection throws `new Error(error.response?.data?.detail ||
'Analysis failed')`. -/
def analyzeSymptoms {α : Type} (o : HttpOutcome α) : Except String α :=
  match o with
  | .success b => .ok b
  | .httpError d => .error (jsOrDefault d "Analysis failed")
  | .networkError => .error (jsOrDefault none "Analysis failed")

/-- The error message C9 claims for `analyzeSymptoms`: the body's `detail`
field whenever that field is present, `"Analysis failed"` otherwise. -/
def claimedAnalyzeResult {α : Type} (o : HttpOutcome α) : Except String α :=
  match o with
  | .success b => .ok b
  | .httpError (some d) => .error d
  | .httpError none => .error "Analysis failed"
  | .networkError => .error "Analysis failed"

/-! ## Claim theorems -/

/-- C2: for every symptom text, `evaluate` returns a Safety Verdict whose
severity is the maximum tier (critical > urgent > moderate > routine) over
all matched emergency phrases (every match is a lower-or-equal tier, and
unless the severity is the bottom tier `routine` it is attained by some
match), whose `matched_keywords` contains every matched phrase, and whose
`is_emergency` is true if and only if that severity is urgent or critical. -/
theorem evaluate_max_tier_all_matches (text : String) :
    (∀ kv ∈ matchedEntries text,
        sevRank kv.2 ≤ sevRank (evaluate text).severity) ∧
    ((evaluate text).severity = .routine ∨
      ∃ kv ∈ matchedEntries text, kv.2 = (evaluate text).severity) ∧
    (∀ kv ∈ matchedEntries text, kv.1 ∈ (evaluate text).matched_keywords) ∧
    ((evaluate text).is_emergency = true ↔
      ((evaluate text).severity = .urgent ∨ (evaluate text).severity = .critical)) := by
  refine ⟨?_, ?_, ?_, ?_⟩
  · intro kv h
    simpa [evaluate] using foldl_maxSev_mem_le (matchedEntries text) .routine kv h
  · simpa [evaluate] using foldl_maxSev_attained (matchedEntries text) .routine
  · intro kv h
    simpa [evaluate] using List.mem_map_of_mem (·.1) h
  · simp [evaluate]

/-- Witness for C2 at the spec's example input. -/
theorem evaluate_max_tier_all_matches_witness :
    "chest pain" ∈ (evaluate "chest pain and confusion").matched_keywords ∧
    sevRank Severity.critical ≤ sevRank (evaluate "chest pain and confusion").severity := by
  have h := evaluate_max_tier_all_matches "chest pain and confusion"
  exact ⟨h.2.2.1 ("chest pain", Severity.critical) (by decide),
         h.1 ("chest pain", Severity.critical) (by decide)⟩

/-- C1: whenever the Emergency Gate verdict for a report is `critical`,
`handle` returns status `"emergency"` with `analysis = none` and the
populated Safety Verdict of the gate (whose severity is critical); the
result does not depend on the environment at all, so neither retrieval nor
the language-model call is consulted. -/
theorem handle_emergency_shortcut (r : SymptomReport) (env : Env)
    (h : (evaluate r.symptoms).severity = .critical) :
    handle r env = { status := "emergency", safety_check := evaluate r.symptoms,
                     analysis := none } ∧
    (handle r env).safety_check.severity = .critical ∧
    (handle r env).analysis = none ∧
    (∀ env2, handle r env2 = handle r env) := by
  have he : ∀ e : Env, handle r e =
      { status := "emergency", safety_check := evaluate r.symptoms,
        analysis := none } := by
    intro e
    unfold handle
    simp [h]
  refine ⟨he env, ?_, ?_, fun env2 => (he env2).trans (he env).symm⟩
  · rw [he env]
    exact h
  · rw [he env]

/-- A concrete stub environment for witnesses. -/
def stubEnv : Env :=
  { retrieveCtx := fun _ => .ok []
    llm := fun _ _ => .error (.provider "service unreachable") }

/-- The spec's shortcut-correctness example report. -/
def emergencyReport : SymptomReport :=
  { symptoms := "severe chest pain, can't breathe", age := none, gender := none
    medical_history := none, duration := none, severity := none }

/-- Witness for C1 at the spec's shortcut-correctness example. -/
theorem handle_emergency_shortcut_witness :
    handle emergencyReport stubEnv =
      { status := "emergency", safety_check := evaluate emergencyReport.symptoms,
        analysis := none } ∧
    (handle emergencyReport stubEnv).safety_check.severity = .critical ∧
    (handle emergencyReport stubEnv).analysis = none ∧
    (∀ env2, handle emergencyReport env2 = handle emergencyReport stubEnv) :=
  handle_emergency_shortcut emergencyReport stubEnv (by decide)

/-- In every branch of the state machine, the returned Safety Verdict is the
Emergency Gate's verdict. -/
theorem handle_safety_check (r : SymptomReport) (env : Env) :
    (handle r env).safety_check = evaluate r.symptoms := by
  by_cases hc : (evaluate r.symptoms).severity = Severity.critical
  · simp [handle, hc]
  · cases hr : env.retrieveCtx r.symptoms with
    | error e => simp [handle, hc, hr]
    | ok ctx =>
      cases ha : analyze env r ctx (evaluate r.symptoms) with
      | error e => simp [handle, hc, hr, ha]
      | ok a => simp [handle, hc, hr, ha]

/-- C3: if the language-model call fails on every attempt (ProviderError or
ParseError), a non-critical report is handled as status `"partial"` with the
Safety Verdict populated and `analysis = none`; moreover the Safety Verdict
is the gate's verdict under every environment, so it is never dropped by a
downstream failure and no analysis is fabricated. -/
theorem handle_degraded_on_llm_failure (r : SymptomReport) (env : Env)
    (hcrit : (evaluate r.symptoms).severity ≠ .critical)
    (hfail : ∀ p n, ∃ e, env.llm p n = .error e) :
    handle r env = { status := "partial", safety_check := evaluate r.symptoms,
                     analysis := none } ∧
    (∀ env2, (handle r env2).safety_check = evaluate r.symptoms) := by
  refine ⟨?_, fun env2 => handle_safety_check r env2⟩
  unfold handle
  rw [if_neg hcrit]
  cases hr : env.retrieveCtx r.symptoms with
  | error e => rfl
  | ok ctx =>
    obtain ⟨e0, h0⟩ := hfail (buildPrompt r ctx (evaluate r.symptoms)) 0
    obtain ⟨e1, h1⟩ := hfail (buildPrompt r ctx (evaluate r.symptoms)) 1
    simp [analyze, callLLMWithRetry, h0, h1, Except.map]

/-- A report the gate rates below critical. -/
def routineReport : SymptomReport :=
  { symptoms := "mild headache and fatigue", age := none, gender := none
    medical_history := none, duration := none, severity := none }

/-- Witness for C3: a concrete environment whose language-model call fails
on every attempt degrades a non-critical report to `"partial"`. -/
theorem handle_degraded_on_llm_failure_witness :
    handle routineReport stubEnv =
      { status := "partial", safety_check := evaluate routineReport.symptoms,
        analysis := none } ∧
    (∀ env2, (handle routineReport env2).safety_check = evaluate routineReport.symptoms) :=
  handle_degraded_on_llm_failure routineReport stubEnv (by decide)
    (fun _ _ => ⟨.provider "service unreachable", rfl⟩)

/-- C4 counterexample: the symptom form (the only acceptance check in the
repository's sources) rejects the report whose symptoms text is
`"headache"`, which is non-empty after trimming — its `minLength: 10` rule
is an additional constraint on the symptoms text, so acceptance is not
equivalent to non-emptiness after trimming. -/
theorem form_acceptance_counterexample :
    ¬ (formAccepts { symptoms := "headache", age := none, gender := none,
                     medical_history := none, duration := none,
                     severity := none } = true ↔
       trimmedNonempty "headache" = true) := by
  decide

/-- C4 amended: a Symptom Report is accepted by the form if and only if its
raw symptoms text has at least 10 characters and any supplied age lies
between 0 and 120; gender, medical history, duration and severity are
optional and carry no constraint (changing them never changes acceptance).
The spec-modelled core itself checks exactly non-emptiness after trimming. -/
theorem form_acceptance_characterization (d : SymptomFormData) :
    (formAccepts d = true ↔
      (10 ≤ d.symptoms.length ∧ ageFieldAccepted d.age = true)) ∧
    (∀ g mh du sv,
      formAccepts
        { d with
          gender := g, medical_history := mh, duration := du, severity := sv } =
        formAccepts d) ∧
    (∀ r : SymptomReport, coreAccepts r = true ↔
      trimmedNonempty r.symptoms = true) := by
  refine ⟨?_, fun g mh du sv => rfl, fun r => Iff.rfl⟩
  unfold formAccepts symptomsFieldAccepted
  constructor
  · intro h
    rw [Bool.and_eq_true, Bool.and_eq_true] at h
    exact ⟨of_decide_eq_true h.1.2, h.2⟩
  · rintro ⟨h1, h2⟩
    rw [Bool.and_eq_true, Bool.and_eq_true]
    refine ⟨⟨?_, decide_eq_true h1⟩, h2⟩
    have hne : d.symptoms ≠ "" := by
      intro he
      rw [he] at h1
      simp at h1
    rw [Bool.not_eq_true']
    exact Bool.eq_false_iff.mpr fun hE => hne ((String.isEmpty_iff d.symptoms).mp hE)

/-- C5: a query against an empty Vector Index returns the empty sequence —
`search` never errors and `retrieve` (with a positive `k`) answers `ok []` —
and `analyze` run with empty retrieved context only ever produces a
Structured Analysis whose confidence level is `low`, regardless of the
confidence the model reported. -/
theorem empty_index_graceful (q : String) (k : Int) (hk : 0 < k) :
    retrieve [] q k = .ok [] ∧
    (∀ v m, search [] v m = []) ∧
    (∀ env r verdict a, analyze env r [] verdict = .ok a →
      a.confidence_level = .low) := by
  have hs : ∀ (v : List ℚ) (m : Nat), search [] v m = [] := by
    intro v m
    simp [search]
  refine ⟨?_, hs, ?_⟩
  · unfold retrieve
    rw [if_neg (by omega)]
    rw [hs]
  · intro env r verdict a h
    unfold analyze at h
    cases hc : callLLMWithRetry env (buildPrompt r [] verdict) with
    | error e => rw [hc] at h; cases h
    | ok a0 =>
      rw [hc] at h
      simp [Except.map] at h
      rw [← h]

/-- Witness for C5 at the spec's example query `retrieve("fever", k=5)`. -/
theorem empty_index_graceful_witness :
    retrieve [] "fever" 5 = .ok [] ∧
    (∀ v m, search [] v m = []) ∧
    (∀ env r verdict a, analyze env r [] verdict = .ok a →
      a.confidence_level = .low) :=
  empty_index_graceful "fever" 5 (by norm_num)

/-- C7: violating the chunking precondition `overlap_tokens <
chunk_size_tokens` makes `chunk` fail fast with a configuration error and
produce no chunks at all, and a non-positive `k` makes `retrieve` fail with
a configuration error and produce no results — neither parameter is
silently clamped into a valid range. -/
theorem config_errors_fail_fast (doc : Document) (size overlap : Nat)
    (idx : List IndexEntry) (q : String) (k : Int)
    (hov : size ≤ overlap) (hk : k ≤ 0) :
    chunk doc size overlap =
      .error (.configuration "overlap_tokens must be less than chunk_size_tokens") ∧
    (∀ cs, chunk doc size overlap ≠ .ok cs) ∧
    retrieve idx q k = .error (.configuration "retrieval k must be positive") ∧
    (∀ rs, retrieve idx q k ≠ .ok rs) := by
  have h1 : chunk doc size overlap =
      .error (.configuration "overlap_tokens must be less than chunk_size_tokens") := by
    unfold chunk
    rw [dif_neg (by omega)]
  have h2 : retrieve idx q k =
      .error (.configuration "retrieval k must be positive") := by
    unfold retrieve
    rw [if_pos hk]
  refine ⟨h1, fun cs h => ?_, h2, fun rs h => ?_⟩
  · rw [h1] at h
    cases h
  · rw [h2] at h
    cases h

/-- Witness for C7 at `overlap = chunk_size = 10` and `k = 0`. -/
theorem config_errors_fail_fast_witness :
    chunk { id := "d", source_path := "p", raw_text := "some text",
            kind := .text } 10 10 =
      .error (.configuration "overlap_tokens must be less than chunk_size_tokens") ∧
    (∀ cs, chunk { id := "d", source_path := "p", raw_text := "some text",
                   kind := .text } 10 10 ≠ .ok cs) ∧
    retrieve [] "fever" 0 = .error (.configuration "retrieval k must be positive") ∧
    (∀ rs, retrieve [] "fever" 0 ≠ .ok rs) :=
  config_errors_fail_fast _ 10 10 [] "fever" 0 (by omega) (by omega)

/-- C8: for a fixed corpus and fixed chunking parameters, two successive
`build` calls with `clear()` between them are literally the same
computation: they produce identical chunk sets and reports, an identical
chunk-to-document mapping, and indexes whose `search` answers agree on
every query and every k. -/
theorem rebuild_deterministic (st st2 : List IndexEntry) (docs : List Document)
    (size overlap : Nat) :
    build (clear st) docs size overlap = build (clear st2) docs size overlap ∧
    (∀ q k, buildSearch (build (clear st) docs size overlap) q k =
            buildSearch (build (clear st2) docs size overlap) q k) ∧
    buildChunkMap (build (clear st) docs size overlap) =
      buildChunkMap (build (clear st2) docs size overlap) :=
  ⟨rfl, fun _ _ => rfl, rfl⟩

/-! ### Cauchy–Schwarz over rational vectors, for the score bound of C6 -/

theorem sumSq_nonneg (u : List ℚ) : 0 ≤ sumSq u := by
  induction u with
  | nil => simp [sumSq]
  | cons a u ih =>
    have hc : sumSq (a :: u) = a * a + sumSq u := by
      simp [sumSq]
    rw [hc]
    nlinarith [mul_self_nonneg a]

theorem cauchy_step (a b d A B : ℚ) (hA : 0 ≤ A) (hB : 0 ≤ B)
    (hd : d * d ≤ A * B) :
    (a * b + d) * (a * b + d) ≤ (a * a + A) * (b * b + B) := by
  rcases eq_or_lt_of_le hB with hB0 | hBpos
  · have hd0 : d * d ≤ 0 := by nlinarith
    have hdz : d = 0 := by nlinarith [mul_self_nonneg d]
    subst hdz
    nlinarith [mul_nonneg hA (mul_self_nonneg b), mul_nonneg hA hB]
  · nlinarith [sq_nonneg (a * B - b * d),
      mul_nonneg (mul_self_nonneg b) (sub_nonneg.mpr hd),
      mul_nonneg hB (sub_nonneg.mpr hd)]

theorem dot_sq_le (u v : List ℚ) : dot u v * dot u v ≤ sumSq u * sumSq v := by
  induction u generalizing v with
  | nil => simp [dot, sumSq]
  | cons a u ih =>
    cases v with
    | nil =>
      simp only [dot, List.zipWith_nil_right, List.sum_nil, sumSq,
        List.map_nil, mul_zero]
      nlinarith
    | cons b v =>
      have h := cauchy_step a b (dot u v) (sumSq u) (sumSq v)
        (sumSq_nonneg u) (sumSq_nonneg v) (ih v)
      simpa [dot, sumSq, List.zipWith_cons_cons, List.sum_cons,
        List.map_cons] using h

theorem dot_in_unit_ball (q w : List ℚ) (hq : sumSq q = 1) (hw : sumSq w = 1) :
    -1 ≤ dot q w ∧ dot q w ≤ 1 := by
  have h := dot_sq_le q w
  rw [hq, hw, one_mul] at h
  constructor
  · nlinarith [sq_nonneg (dot q w + 1)]
  · nlinarith [sq_nonneg (dot q w - 1)]

/-! ### Order properties of the search comparator -/

theorem resultLEb_trans (a b c : RetrievalResult)
    (hab : resultLEb a b = true) (hbc : resultLEb b c = true) :
    resultLEb a c = true := by
  rw [resultLEb, decide_eq_true_iff] at *
  rcases hab with h1 | ⟨h1, h1'⟩ <;> rcases hbc with h2 | ⟨h2, h2'⟩
  · exact Or.inl (lt_trans h2 h1)
  · exact Or.inl (h2 ▸ h1)
  · exact Or.inl (by rw [h1]; exact h2)
  · exact Or.inr ⟨h1.trans h2, le_trans h1' h2'⟩

theorem resultLEb_total (a b : RetrievalResult) :
    (resultLEb a b || resultLEb b a) = true := by
  rw [Bool.or_eq_true, resultLEb, resultLEb, decide_eq_true_iff,
    decide_eq_true_iff]
  rcases lt_trichotomy a.score b.score with h | h | h
  · exact Or.inr (Or.inl h)
  · rcases Nat.le_total a.chunk_id b.chunk_id with h2 | h2
    · exact Or.inl (Or.inr ⟨h, h2⟩)
    · exact Or.inr (Or.inr ⟨h.symm, h2⟩)
  · exact Or.inl (Or.inl h)

/-- C6: for every query vector, every k and every index of unit-normalized
embeddings, the `search` result is sorted by descending score with ties
broken by ascending chunk id, every score lies in `[-1, 1]`, and the scores
are monotonically non-increasing by position. -/
theorem search_sorted_bounded (entries : List IndexEntry) (q : List ℚ)
    (k : Nat) (hunit : ∀ e ∈ entries, sumSq e.vec = 1) (hq : sumSq q = 1) :
    (search entries q k).Pairwise resultLE ∧
    (∀ res ∈ search entries q k, -1 ≤ res.score ∧ res.score ≤ 1) ∧
    (∀ i j : Fin (search entries q k).length, i ≤ j →
      ((search entries q k).get j).score ≤ ((search entries q k).get i).score) := by
  have hsorted := List.sorted_mergeSort resultLEb_trans resultLEb_total
    (entries.map fun e =>
      ({ chunk_id := e.chunkId, text := e.text, score := dot q e.vec
         document_source := e.docId } : RetrievalResult))
  have hpair : (search entries q k).Pairwise resultLE := by
    unfold search
    exact List.Pairwise.sublist (List.take_sublist k _)
      (hsorted.imp fun h => of_decide_eq_true h)
  refine ⟨hpair, ?_, ?_⟩
  · intro res hres
    unfold search at hres
    have h1 := List.mem_of_mem_take hres
    have h2 := (List.mergeSort_perm _ resultLEb).subset h1
    obtain ⟨e, he, heq⟩ := List.mem_map.mp h2
    have := dot_in_unit_ball q e.vec hq (hunit e he)
    rw [← heq]
    exact this
  · intro i j hij
    rcases eq_or_lt_of_le hij with heq | hlt
    · rw [heq]
    · rcases List.pairwise_iff_get.mp hpair i j hlt with h | ⟨h, _⟩
      · exact le_of_lt h
      · exact le_of_eq h.symm

/-- A two-entry index of unit embeddings for the C6 witness. -/
def witnessEntries : List IndexEntry :=
  [{ chunkId := 0, docId := "doc", text := "alpha", vec := [1, 0] },
   { chunkId := 1, docId := "doc", text := "beta", vec := [0, 1] }]

/-- Witness for C6 on a concrete two-entry index and unit query vector. -/
theorem search_sorted_bounded_witness :
    (search witnessEntries [0, 1] 5).Pairwise resultLE ∧
    (∀ res ∈ search witnessEntries [0, 1] 5, -1 ≤ res.score ∧ res.score ≤ 1) ∧
    (∀ i j : Fin (search witnessEntries [0, 1] 5).length, i ≤ j →
      ((search witnessEntries [0, 1] 5).get j).score ≤
        ((search witnessEntries [0, 1] 5).get i).score) := by
  refine search_sorted_bounded witnessEntries [0, 1] 5 ?_ (by norm_num [sumSq])
  intro e he
  simp only [witnessEntries, List.mem_cons, List.not_mem_nil, or_false] at he
  rcases he with rfl | rfl <;> norm_num [sumSq]

/-- C9 counterexample: when the failed response carries a `detail` field
that is present but the empty string, the code's JavaScript `||` falls back
to `"Analysis failed"`, while the claim predicts the message `""` — so the
thrown message is not the `detail` field whenever that field is present. -/
theorem analyze_symptoms_counterexample :
    analyzeSymptoms (HttpOutcome.httpError (α := Unit) (some "")) ≠
      claimedAnalyzeResult (HttpOutcome.httpError (α := Unit) (some "")) := by
  intro h
  simp only [analyzeSymptoms, claimedAnalyzeResult, jsOrDefault,
    if_pos rfl, Except.error.injEq] at h
  exact absurd h (by decide)

/-- C9 amended: `analyzeSymptoms` returns exactly the response body of a
successful POST, and otherwise throws an Error whose message is the
response body's `detail` field when that field is present *and non-empty*,
and `"Analysis failed"` otherwise (absent detail, empty-string detail, or
no response at all); it never propagates the raw transport error and never
resolves on a failed request. -/
theorem analyze_symptoms_error_handling {α : Type} (o : HttpOutcome α) :
    (∀ b, o = .success b → analyzeSymptoms o = .ok b) ∧
    (∀ d, o = .httpError (some d) → d ≠ "" → analyzeSymptoms o = .error d) ∧
    ((o = .httpError (some "") ∨ o = .httpError none ∨ o = .networkError) →
      analyzeSymptoms o = .error "Analysis failed") ∧
    (∀ b, analyzeSymptoms o = .ok b → o = .success b) := by
  refine ⟨?_, ?_, ?_, ?_⟩
  · rintro b rfl
    rfl
  · rintro d rfl hd
    simp [analyzeSymptoms, jsOrDefault, hd]
  · rintro (rfl | rfl | rfl) <;> rfl
  · intro b h
    cases o with
    | success b2 =>
      cases h
      rfl
    | httpError d => cases h
    | networkError => cases h

/-- Witness for C9 at a failed request carrying a non-empty detail. -/
theorem analyze_symptoms_error_handling_witness :
    analyzeSymptoms (HttpOutcome.httpError (α := Unit) (some "Invalid input")) =
      .error "Invalid input" :=
  (analyze_symptoms_error_handling (HttpOutcome.httpError (α := Unit)
    (some "Invalid input"))).2.1 "Invalid input" rfl (by decide)

/-! ### Non-emptiness of the JavaScript comma-split, for C10 -/

theorem splitOnComma_ne_nil (cs : List Char) : splitOnComma cs ≠ [] := by
  induction cs with
  | nil => simp [splitOnComma]
  | cons c rest ih =>
    simp only [splitOnComma]
    split
    · simp
    · split <;> simp

theorem medicalHistoryList_ne_nil (s : String) : medicalHistoryList s ≠ [] := by
  unfold medicalHistoryList
  simp only [ne_eq, List.map_eq_nil_iff]
  exact splitOnComma_ne_nil s.toList

/-- C10: the payload's `medical_history` equals the comma-split,
per-element-trimmed list of the medical-history input whenever that input
is a non-empty string (and that list is never empty, so the length guard
always passes), and is omitted (`none`) when the input is absent or empty;
consequently the request never carries an empty `medical_history` list. -/
theorem medical_history_payload (inp : Option String) :
    (∀ s, inp = some s → s ≠ "" →
      processMedicalHistory inp = some (medicalHistoryList s)) ∧
    (processMedicalHistory (some "") = none ∧ processMedicalHistory none = none) ∧
    (∀ l, processMedicalHistory inp = some l → l ≠ []) := by
  refine ⟨?_, ⟨rfl, rfl⟩, ?_⟩
  · rintro s rfl hs
    show (if s = "" then none
      else
        let l := medicalHistoryList s
        if l.length > 0 then some l else none) = some (medicalHistoryList s)
    rw [if_neg hs, if_pos]
    rcases hl : medicalHistoryList s with _ | ⟨h, t⟩
    · exact absurd hl (medicalHistoryList_ne_nil s)
    · simp
  · intro l h
    cases inp with
    | none => cases h
    | some s =>
      have h2 : (if s = "" then none
          else
            let l := medicalHistoryList s
            if l.length > 0 then some l else none) = some l := h
      by_cases hs : s = ""
      · rw [if_pos hs] at h2
        cases h2
      · rw [if_neg hs] at h2
        have h3 : (if (medicalHistoryList s).length > 0
            then some (medicalHistoryList s) else none) = some l := h2
        split at h3
        · cases h3
          exact medicalHistoryList_ne_nil s
        · cases h3

/-- Witness for C10 on a concrete comma-separated input. -/
theorem medical_history_payload_witness :
    processMedicalHistory (some "diabetes, hypertension") =
      some (medicalHistoryList "diabetes, hypertension") :=
  (medical_history_payload (some "diabetes, hypertension")).1
    "diabetes, hypertension" rfl (by decide)

end SymptomChecker
